import Mathlib

/-!
Verification of the value-acquisition core of the CPP-LOGinout repository.

The development shallowly embeds the relevant parts of the source:
the line parser used by `Logger::read_input` and `Logger::try_read_input`
(src/include/logfunc.h, src/src/logfunc_lib.cpp), the input-file cache and
its fast path, the `FileWatcher` flag protocol (`stop`, `wait_for_change`),
the adaptive polling interval of `FileWatcher::watch_polling`, the Linux
native-watch setup with its polling fallback, and the two timeout-bounded
read loops. Machine-level I/O is represented by explicit state: a file is a
record of presence, readability, modification time and its list of lines;
the steady clock is an integer number of milliseconds supplied per step.
-/

set_option maxRecDepth 4000

namespace LogFunc

/-! ## ValueParser: the line scanner shared by all read paths

The C++ code trims each line with
`line.erase(0, line.find_first_not_of(" \t\r\n"))` and
`line.erase(line.find_last_not_of(" \t\r\n") + 1)`, skips a line that is
then empty or starts with the character #, and otherwise feeds the line to
`std::istringstream` extraction for the target type. A file text is
modelled as its list of lines (the decomposition produced by
`std::getline`), a line as a list of characters. -/

/-- Characters removed by the trimming calls in the source: space, tab,
carriage return, newline. -/
def isWsChar (c : Char) : Bool :=
  c = ' ' || c = '\t' || c = '\r' || c = '\n'

/-- Trim of surrounding whitespace, as performed by the two erase calls
on every line before it is inspected. -/
def trimLine (l : List Char) : List Char :=
  ((l.dropWhile isWsChar).reverse.dropWhile isWsChar).reverse

/-- Per-line step of the scanner: trim, skip if empty or the first
character is #, otherwise run the token parser P, which models the
`iss >> value` extraction for the target type. A parse failure yields
none, which the scanner treats as skip-and-continue. -/
def parseLine {α : Type} (P : List Char → Option α) (l : List Char) : Option α :=
  match trimLine l with
  | [] => none
  | c :: rest => if c = '#' then none else P (c :: rest)

/-- The scanning loop of `read_input` and `try_read_input`: lines are
visited top to bottom and the first successfully parsed value is
returned. -/
def scanLines {α : Type} (P : List Char → Option α) : List (List Char) → Option α
  | [] => none
  | l :: ls =>
    match parseLine P l with
    | some v => some v
    | none => scanLines P ls

/-- Model of `std::istringstream` extraction of an int from a trimmed
line: an optional sign followed by at least one decimal digit; extraction
stops at the first non-digit and succeeds if a digit was read. -/
def parseIntTok (l : List Char) : Option Int :=
  let signAndRest : Int × List Char :=
    match l with
    | '+' :: r => (1, r)
    | '-' :: r => (-1, r)
    | r => (1, r)
  let ds := signAndRest.2.takeWhile Char.isDigit
  if ds.isEmpty then none
  else some (signAndRest.1 * Int.ofNat (ds.foldl (fun a c => a * 10 + (c.toNat - 48)) 0))

/-! ## Input-file cache and the try-once read

`Logger::InputFileCache` holds the last observed modification time, the
steady-clock instant of the last attempt and a file-exists flag;
`cache_duration` is fixed at 10 ms. File times are modelled as
`Option Int`: none stands for `std::filesystem::file_time_type::min()`,
the value returned by `get_file_modify_time` when the stat fails. -/

structure InputFileCache where
  last_modify_time : Option Int
  last_access : Int
  file_exists : Bool
deriving DecidableEq

/-- The fixed 10 ms cache duration of `Logger::InputFileCache`. -/
def cache_duration : Int := 10

/-- The initial cache value of a fresh Logger: minimal file time, zero
time point, file not known to exist. -/
def input_cache_init : InputFileCache := ⟨none, 0, false⟩

/-- A view of the watched file: whether it is present on disk, whether an
ifstream open of it succeeds, its modification time, and its lines. -/
structure FsFile where
  present : Bool
  readable : Bool
  mtime : Int
  content : List (List Char)
deriving DecidableEq

/-- Model of `logfunc_internal::get_file_modify_time`: the last write time
of the file, or the minimal file time (none) when the stat fails because
the file is absent. -/
def get_file_modify_time (fs : FsFile) : Option Int :=
  if fs.present then some fs.mtime else none

/-- The header comment written by `ensure_input_file_exists` when it
creates the input file. -/
def headerLine : List Char := "# Enter input values here (one per line)".toList

/-- Model of `Logger::ensure_input_file_exists`: when the input file is
absent it is created, readable, with the single header comment line; the
argument supplies the modification time the filesystem assigns to the new
file. A present file is left untouched. -/
def ensure_input_file_exists (fs : FsFile) (createMtime : Int) : FsFile :=
  if fs.present then fs
  else ⟨true, true, createMtime, [headerLine]⟩

/-- Outcome of one `try_read_input` call: the updated cache, the parsed
value when one was found, and whether an ifstream open of the input file
was attempted (the instrumentation the spec calls a file-open counter). -/
structure TryReadOut (α : Type) where
  cache : InputFileCache
  found : Option α
  openedFile : Bool
deriving DecidableEq

/-- Body of `Logger::try_read_input` after `ensure_input_file_exists`:
the fast path returns not-found without opening the file when the cache
records the file as existing, less than 10 ms have elapsed since the last
attempt and the modification time is unchanged; otherwise the file is
opened, on open failure only the exists flag and access time are updated,
and on a successful open the scanner runs and all three cache fields are
updated whether or not a value was found. The parameter now is the value
of `std::chrono::steady_clock::now()` during the call. -/
def try_read_core {α : Type} (P : List Char → Option α) (cache : InputFileCache)
    (now : Int) (fs : FsFile) : TryReadOut α :=
  let current_modify_time := get_file_modify_time fs
  if cache.file_exists = true ∧ now - cache.last_access < cache_duration ∧
      current_modify_time = cache.last_modify_time then
    ⟨cache, none, false⟩
  else if fs.present = true ∧ fs.readable = true then
    match scanLines P fs.content with
    | some v => ⟨⟨current_modify_time, now, true⟩, some v, true⟩
    | none => ⟨⟨current_modify_time, now, true⟩, none, true⟩
  else
    ⟨⟨cache.last_modify_time, now, false⟩, none, true⟩

/-- Full `Logger::try_read_input`: first `ensure_input_file_exists`, then
the cached read. Returns the read outcome together with the state of the
file after the ensure step. -/
def try_read_input {α : Type} (P : List Char → Option α) (cache : InputFileCache)
    (now : Int) (fs : FsFile) (createMtime : Int) : TryReadOut α × FsFile :=
  let fs1 := ensure_input_file_exists fs createMtime
  (try_read_core P cache now fs1, fs1)

/-! ## FileWatcher flag protocol

`FileWatcher` coordinates its background thread and waiting threads
through two atomics, `running_` and `change_detected_`, a mutex and a
condition variable. The state is modelled by the two flags plus a
threadActive bit recording whether the background thread is live (it is
joined by `stop`). The condition-variable wait with predicate returns the
value of the predicate at the instant the wait ends, evaluated under the
mutex, so the outcome of `wait_for_change` is a function of the state at
entry and the state at the moment the wait wakes. -/

structure WatcherState where
  running : Bool
  change_detected : Bool
  threadActive : Bool
deriving DecidableEq

namespace FileWatcher

/-- Model of `FileWatcher::stop`: a no-op when not running; otherwise it
clears running, sets the change flag under the mutex to wake any waiter,
wakes all waiters, tears down the platform watch and joins the background
thread. -/
def stop (s : WatcherState) : WatcherState :=
  if s.running = false then s
  else ⟨false, true, false⟩

/-- Model of `FileWatcher::start`: when a watch is already running it is
fully stopped first, then the new watch is started, setting running and
spawning the background thread. The change flag is not touched by the
start itself. -/
def start (s : WatcherState) : WatcherState :=
  let s1 := if s.running = true then stop s else s
  ⟨true, s1.change_detected, true⟩

end FileWatcher

/-- Model of `FileWatcher::wait_for_change(timeout)`: if the change flag
is already set at entry it is consumed and the wait returns true at once;
otherwise the thread blocks on the condition variable until the predicate
(change flag set, or no longer running) holds or the timeout elapses, and
the wake parameter is the watcher state at the moment the wait ends. The
condition-variable wait reports whether the predicate held then; if it
held and the change flag is set the flag is consumed and the wait returns
true, otherwise it returns false. -/
def wait_for_change (entry wake : WatcherState) : WatcherState × Bool :=
  if entry.change_detected = true then
    ({ entry with change_detected := false }, true)
  else
    let result := wake.change_detected || !wake.running
    if result = true ∧ wake.change_detected = true then
      ({ wake with change_detected := false }, true)
    else
      (wake, false)

/-! ## Adaptive polling fallback

`FileWatcher::watch_polling` keeps a poll interval (milliseconds) and a
count of consecutive no-change samples. Each loop iteration stats the
file; on a change it notifies, resets the interval to the 10 ms floor and
zeroes the count; otherwise it increments the count and, once the count
exceeds 10 and the interval is below the 500 ms ceiling, doubles the
interval, capped at the ceiling. -/

structure PollState where
  interval : Nat
  no_change_count : Nat
deriving DecidableEq

/-- One iteration of the adaptive loop in `watch_polling`; the argument
changed tells whether the sampled modification time differed from the
last one. -/
def pollStep (s : PollState) (changed : Bool) : PollState :=
  if changed then ⟨10, 0⟩
  else
    let c := s.no_change_count + 1
    if c > 10 ∧ s.interval < 500 then ⟨min (s.interval * 2) 500, c⟩
    else ⟨s.interval, c⟩

/-- The initial state of the loop: a 50 ms interval and a zero count. -/
def pollInit : PollState := ⟨50, 0⟩

/-- The poll state after processing a sequence of change samples from the
initial state. -/
def pollRun (samples : List Bool) : PollState :=
  samples.foldl pollStep pollInit

/-! ## Native watch setup on Linux and the polling fallback

`FileWatcher::start_linux` performs three fallible setup steps: inotify
initialization, watch registration, and creation of the self-pipe used to
interrupt the wait on stop. Failure of any step tears down what was
created and delegates to `start_polling`, which always spawns the polling
thread and returns true. -/

inductive DetectKind where
  | native
  | polling
deriving DecidableEq

/-- Which of the three setup steps of `start_linux` succeed. -/
structure LinuxSetup where
  inotify_ok : Bool
  add_watch_ok : Bool
  pipe_ok : Bool
deriving DecidableEq

/-- Model of `FileWatcher::start_polling`: spawns the polling thread and
reports success unconditionally. -/
def start_polling : Bool × DetectKind := (true, DetectKind.polling)

/-- Model of `FileWatcher::start_linux`: each failed setup step falls
back to `start_polling`; when all succeed the native inotify watch thread
is started. -/
def start_linux (s : LinuxSetup) : Bool × DetectKind :=
  if s.inotify_ok = false then start_polling
  else if s.add_watch_ok = false then start_polling
  else if s.pipe_ok = false then start_polling
  else (true, DetectKind.native)

/-! ## Timeout-bounded read loops

`Logger::read_input_timeout` ensures the input file exists, then runs
either the event-driven or the polling loop. Each loop iteration reads
the steady clock; the environment of one iteration is the clock value,
whether the watcher callback has set the file-changed flag since the last
iteration, and the state of the input file as seen by `try_read_input`
during the iteration. The loops are given the list of iteration
environments as fuel; none means the supplied environments were exhausted
before the loop returned. -/

structure LoopEnv where
  now : Int
  changeSignal : Bool
  fs : FsFile
deriving DecidableEq

/-- Result of the event-driven timeout loop: the boolean the function
returns, the value read, whether the watcher was stopped before the
return, the number of `try_read_input` calls made, the clock value of the
returning iteration, and the final cache. -/
structure EvResult (α : Type) where
  success : Bool
  value : Option α
  watcherStopped : Bool
  attempts : Nat
  finishTime : Int
  cache : InputFileCache
deriving DecidableEq

/-- Result of the polling timeout loop; no watcher is started by that
variant. -/
structure PollResult (α : Type) where
  success : Bool
  value : Option α
  attempts : Nat
  finishTime : Int
  cache : InputFileCache
deriving DecidableEq

/-- Loop body of `Logger::read_input_timeout_event_driven`. At each
iteration: compute the elapsed time; if it reached the timeout, stop the
watcher and return false; else, if the file-changed flag (the loop
variable, or freshly set by the watcher callback) is up, clear it and run
`try_read_input`, stopping the watcher and returning true on success;
otherwise wait on the watcher for at most min(remaining, 100 ms) and
iterate. -/
def ev_loop {α : Type} (P : List Char → Option α) (start timeout : Int)
    (cache : InputFileCache) (fc : Bool) (attempts : Nat) :
    List LoopEnv → Option (EvResult α)
  | [] => none
  | e :: rest =>
    let elapsed := e.now - start
    if timeout ≤ elapsed then
      some ⟨false, none, true, attempts, e.now, cache⟩
    else
      let fc1 := fc || e.changeSignal
      if fc1 = true then
        let o := try_read_core P cache e.now e.fs
        match o.found with
        | some v => some ⟨true, some v, true, attempts + 1, e.now, o.cache⟩
        | none => ev_loop P start timeout o.cache false (attempts + 1) rest
      else
        ev_loop P start timeout cache false attempts rest

/-- `read_input_timeout_event_driven`: the watcher is started on the
input path, the file-changed flag starts true so the first iteration
attempts a read, then the loop runs. -/
def read_input_timeout_event_driven {α : Type} (P : List Char → Option α)
    (start timeout : Int) (cache : InputFileCache) (env : List LoopEnv) :
    Option (EvResult α) :=
  ev_loop P start timeout cache true 0 env

/-- Loop body of `Logger::read_input_timeout_polling`: check the elapsed
time against the timeout and return false once reached; otherwise run
`try_read_input`, returning true on success, and sleep 100 ms before the
next iteration. -/
def poll_timeout_loop {α : Type} (P : List Char → Option α) (start timeout : Int)
    (cache : InputFileCache) (attempts : Nat) :
    List LoopEnv → Option (PollResult α)
  | [] => none
  | e :: rest =>
    if timeout ≤ e.now - start then
      some ⟨false, none, attempts, e.now, cache⟩
    else
      let o := try_read_core P cache e.now e.fs
      match o.found with
      | some v => some ⟨true, some v, attempts + 1, e.now, o.cache⟩
      | none => poll_timeout_loop P start timeout o.cache (attempts + 1) rest

/-- `read_input_timeout_polling` with zero prior read attempts. -/
def read_input_timeout_polling {α : Type} (P : List Char → Option α)
    (start timeout : Int) (cache : InputFileCache) (env : List LoopEnv) :
    Option (PollResult α) :=
  poll_timeout_loop P start timeout cache 0 env

/-- Clock advance bound for one event-driven iteration: while the
deadline has not passed, the next iteration begins no later than the
issued wait of min(remaining, 100 ms) plus the wake-up slack gran. -/
def evGap (start timeout gran : Int) (a b : LoopEnv) : Bool :=
  decide (a.now - start < timeout →
    b.now ≤ a.now + min (timeout - (a.now - start)) 100 + gran)

/-- Clock advance bound for one polling iteration: while the deadline has
not passed, the next iteration begins no later than the fixed 100 ms
sleep plus the wake-up slack gran. -/
def pollGap (start timeout gran : Int) (a b : LoopEnv) : Bool :=
  decide (a.now - start < timeout → b.now ≤ a.now + 100 + gran)

/-- A gap bound holding between every pair of consecutive iteration
environments. -/
def gapChain (g : LoopEnv → LoopEnv → Bool) : List LoopEnv → Bool
  | a :: b :: rest => g a b && gapChain g (b :: rest)
  | _ => true

/-! ## Shared helper lemmas -/

/-- A try-once read against a file none of whose lines parses never
reports a value, on any of its three paths. -/
lemma try_read_core_found_none {α : Type} (P : List Char → Option α)
    (cache : InputFileCache) (now : Int) (fs : FsFile)
    (h : scanLines P fs.content = none) :
    (try_read_core P cache now fs).found = none := by
  simp only [try_read_core]
  split
  · rfl
  · split
    · simp [h]
    · rfl

/-- One adaptive-poll step keeps the interval within the floor and the
ceiling. -/
lemma pollStep_bounds (s : PollState) (b : Bool) (h1 : 10 ≤ s.interval)
    (h2 : s.interval ≤ 500) :
    10 ≤ (pollStep s b).interval ∧ (pollStep s b).interval ≤ 500 := by
  cases b
  · simp only [pollStep, Bool.false_eq_true, if_false]
    split
    · simp only
      omega
    · exact ⟨h1, h2⟩
  · simp [pollStep]

/-- The interval of the adaptive poll loop stays within the floor and the
ceiling throughout any run. -/
lemma pollRun_bounds_aux (samples : List Bool) :
    ∀ s : PollState, 10 ≤ s.interval → s.interval ≤ 500 →
      10 ≤ (samples.foldl pollStep s).interval
      ∧ (samples.foldl pollStep s).interval ≤ 500 := by
  induction samples with
  | nil => intro s h1 h2; simpa using ⟨h1, h2⟩
  | cons b bs ih =>
    intro s h1 h2
    simp only [List.foldl_cons]
    exact ih (pollStep s b) (pollStep_bounds s b h1 h2).1 (pollStep_bounds s b h1 h2).2

/-- The event-driven timeout loop against a file that never yields a
value returns false at the first iteration whose elapsed time reaches
the timeout; when every step obeys the issued-wait gap bound and the
visited head lies under the deadline-plus-slack bound, the return time
lies in the window [start + timeout, start + timeout + gran]. -/
lemma ev_loop_deadline {α : Type} (P : List Char → Option α) (start timeout gran : Int) :
    ∀ (env : List LoopEnv) (cache : InputFileCache) (fc : Bool) (attempts : Nat),
      (∀ e ∈ env, scanLines P e.fs.content = none) →
      (∃ e ∈ env, timeout ≤ e.now - start) →
      gapChain (evGap start timeout gran) env = true →
      (∀ y, env.head? = some y → y.now ≤ start + timeout + gran) →
      ∃ r : EvResult α,
        ev_loop P start timeout cache fc attempts env = some r
        ∧ r.success = false ∧ r.value = none ∧ r.watcherStopped = true
        ∧ start + timeout ≤ r.finishTime ∧ r.finishTime ≤ start + timeout + gran := by
  intro env
  induction env with
  | nil =>
    intro cache fc attempts _ hex _ _
    simp at hex
  | cons e rest ih =>
    intro cache fc attempts hnv hex hchain hhead
    have hhe : e.now ≤ start + timeout + gran := hhead e rfl
    by_cases hts : timeout ≤ e.now - start
    · refine ⟨⟨false, none, true, attempts, e.now, cache⟩, ?_, rfl, rfl, rfl,
        (by omega : start + timeout ≤ e.now), hhe⟩
      simp only [ev_loop]
      rw [if_pos hts]
    · have hexr : ∃ x ∈ rest, timeout ≤ x.now - start := by
        rcases hex with ⟨x, hx, hx2⟩
        rcases List.mem_cons.mp hx with h | h
        · exact absurd (h ▸ hx2) hts
        · exact ⟨x, h, hx2⟩
      obtain ⟨b, rest2, rfl⟩ : ∃ b rest2, rest = b :: rest2 := by
        rcases hexr with ⟨x, hx, _⟩
        cases rest with
        | nil => cases hx
        | cons b r2 => exact ⟨b, r2, rfl⟩
      have hchain2 : evGap start timeout gran e b = true
          ∧ gapChain (evGap start timeout gran) (b :: rest2) = true := by
        simpa [gapChain, Bool.and_eq_true] using hchain
      have hlt : e.now - start < timeout := by omega
      have hb : b.now ≤ start + timeout + gran := by
        have hor : timeout ≤ e.now - start ∨
            b.now ≤ e.now + min (timeout - (e.now - start)) 100 + gran := by
          simpa [evGap, decide_eq_true_eq] using hchain2.1
        have h2 : b.now ≤ e.now + min (timeout - (e.now - start)) 100 + gran :=
          hor.resolve_left (by omega)
        have hmin : min (timeout - (e.now - start)) 100 ≤ timeout - (e.now - start) :=
          min_le_left _ _
        omega
      have hnvr : ∀ y ∈ b :: rest2, scanLines P y.fs.content = none :=
        fun y hy => hnv y (List.mem_cons_of_mem e hy)
      have hheadr : ∀ y, (b :: rest2).head? = some y → y.now ≤ start + timeout + gran := by
        intro y hy
        rw [List.head?_cons] at hy
        injection hy with h2
        subst h2
        exact hb
      by_cases hfc : (fc || e.changeSignal) = true
      · obtain ⟨r, hr, h1, h2, h3, h4, h5⟩ :=
          ih (try_read_core P cache e.now e.fs).cache false (attempts + 1)
            hnvr hexr hchain2.2 hheadr
        refine ⟨r, ?_, h1, h2, h3, h4, h5⟩
        have hfound : (try_read_core P cache e.now e.fs).found = none :=
          try_read_core_found_none P cache e.now e.fs (hnv e (List.mem_cons_self e _))
        simp only [ev_loop]
        rw [if_neg hts, if_pos hfc, hfound]
        exact hr
      · obtain ⟨r, hr, h1, h2, h3, h4, h5⟩ :=
          ih cache false attempts hnvr hexr hchain2.2 hheadr
        refine ⟨r, ?_, h1, h2, h3, h4, h5⟩
        simp only [ev_loop]
        rw [if_neg hts, if_neg hfc]
        exact hr

/-- Every return of the event-driven timeout loop, on the success path
as well as on the timeout path, has stopped the watcher. -/
lemma ev_loop_stopped {α : Type} (P : List Char → Option α) (start timeout : Int) :
    ∀ (env : List LoopEnv) (cache : InputFileCache) (fc : Bool) (attempts : Nat)
      (r : EvResult α),
      ev_loop P start timeout cache fc attempts env = some r →
      r.watcherStopped = true := by
  intro env
  induction env with
  | nil =>
    intro cache fc attempts r h
    simp [ev_loop] at h
  | cons e rest ih =>
    intro cache fc attempts r h
    simp only [ev_loop] at h
    split at h
    · simp only [Option.some.injEq] at h
      subst h
      rfl
    · split at h
      · split at h
        · simp only [Option.some.injEq] at h
          subst h
          rfl
        · exact ih _ _ _ _ h
      · exact ih _ _ _ _ h

/-- The polling timeout loop against a file that never yields a value
returns false at the first iteration whose elapsed time reaches the
timeout; under the 100 ms sleep gap bound the return time lies in the
window [start + timeout, start + timeout + 100 + gran]. -/
lemma poll_loop_deadline {α : Type} (P : List Char → Option α) (start timeout gran : Int) :
    ∀ (env : List LoopEnv) (cache : InputFileCache) (attempts : Nat),
      (∀ e ∈ env, scanLines P e.fs.content = none) →
      (∃ e ∈ env, timeout ≤ e.now - start) →
      gapChain (pollGap start timeout gran) env = true →
      (∀ y, env.head? = some y → y.now ≤ start + timeout + 100 + gran) →
      ∃ r : PollResult α,
        poll_timeout_loop P start timeout cache attempts env = some r
        ∧ r.success = false ∧ r.value = none
        ∧ start + timeout ≤ r.finishTime ∧ r.finishTime ≤ start + timeout + 100 + gran := by
  intro env
  induction env with
  | nil =>
    intro cache attempts _ hex _ _
    simp at hex
  | cons e rest ih =>
    intro cache attempts hnv hex hchain hhead
    have hhe : e.now ≤ start + timeout + 100 + gran := hhead e rfl
    by_cases hts : timeout ≤ e.now - start
    · refine ⟨⟨false, none, attempts, e.now, cache⟩, ?_, rfl, rfl,
        (by omega : start + timeout ≤ e.now), hhe⟩
      simp only [poll_timeout_loop]
      rw [if_pos hts]
    · have hexr : ∃ x ∈ rest, timeout ≤ x.now - start := by
        rcases hex with ⟨x, hx, hx2⟩
        rcases List.mem_cons.mp hx with h | h
        · exact absurd (h ▸ hx2) hts
        · exact ⟨x, h, hx2⟩
      obtain ⟨b, rest2, rfl⟩ : ∃ b rest2, rest = b :: rest2 := by
        rcases hexr with ⟨x, hx, _⟩
        cases rest with
        | nil => cases hx
        | cons b r2 => exact ⟨b, r2, rfl⟩
      have hchain2 : pollGap start timeout gran e b = true
          ∧ gapChain (pollGap start timeout gran) (b :: rest2) = true := by
        simpa [gapChain, Bool.and_eq_true] using hchain
      have hlt : e.now - start < timeout := by omega
      have hb : b.now ≤ start + timeout + 100 + gran := by
        have hor : timeout ≤ e.now - start ∨ b.now ≤ e.now + 100 + gran := by
          simpa [pollGap, decide_eq_true_eq] using hchain2.1
        have h2 : b.now ≤ e.now + 100 + gran := hor.resolve_left (by omega)
        omega
      have hnvr : ∀ y ∈ b :: rest2, scanLines P y.fs.content = none :=
        fun y hy => hnv y (List.mem_cons_of_mem e hy)
      have hheadr : ∀ y, (b :: rest2).head? = some y →
          y.now ≤ start + timeout + 100 + gran := by
        intro y hy
        rw [List.head?_cons] at hy
        injection hy with h2
        subst h2
        exact hb
      obtain ⟨r, hr, h1, h2, h4, h5⟩ :=
        ih (try_read_core P cache e.now e.fs).cache (attempts + 1) hnvr hexr hchain2.2 hheadr
      refine ⟨r, ?_, h1, h2, h4, h5⟩
      have hfound : (try_read_core P cache e.now e.fs).found = none :=
        try_read_core_found_none P cache e.now e.fs (hnv e (List.mem_cons_self e _))
      simp only [poll_timeout_loop]
      rw [if_neg hts, hfound]
      exact hr

/-! ## Claims -/

/-- C1: the parser scans lines top to bottom and returns the first value
that parses as the target type; each line is trimmed, skipped if empty or
beginning with the comment character, and a line whose token fails to
parse is skipped with scanning continuing; consequently, when exactly one
non-comment, non-blank line parses, that value is returned regardless of
its position. -/
theorem c1_parser_first_value :
    (∀ (α : Type) (P : List Char → Option α) (lines : List (List Char)),
      scanLines P lines = (lines.filterMap (parseLine P)).head?)
    ∧ (∀ (α : Type) (P : List Char → Option α) (lines : List (List Char)) (v : α),
      lines.filterMap (parseLine P) = [v] → scanLines P lines = some v) := by
  have h1 : ∀ (α : Type) (P : List Char → Option α) (lines : List (List Char)),
      scanLines P lines = (lines.filterMap (parseLine P)).head? := by
    intro α P lines
    induction lines with
    | nil => rfl
    | cons l ls ih =>
      cases h : parseLine P l with
      | some v => simp [scanLines, List.filterMap_cons, h]
      | none => simp [scanLines, List.filterMap_cons, h, ih]
  refine ⟨h1, ?_⟩
  intro α P lines v hv
  rw [h1, hv]
  rfl

/-- Witness for C1 at a concrete file: a comment line, a line that fails
to parse, and one parsing line in last position. -/
theorem c1_parser_first_value_witness :
    [" # c ".toList, "abc".toList, " 42 ".toList].filterMap (parseLine parseIntTok)
        = [(42 : Int)]
    ∧ scanLines parseIntTok [" # c ".toList, "abc".toList, " 42 ".toList]
        = some 42 :=
  ⟨by decide,
   c1_parser_first_value.2 Int parseIntTok
     [" # c ".toList, "abc".toList, " 42 ".toList] 42 (by decide)⟩

/-- C2 counterexample: with a watcher running and no pending change, a
concurrent stop does not make the blocked wait return false; stop sets
the change flag to wake the waiter, and the wait consumes the flag and
returns true. -/
theorem c2_wait_stop_cex :
    ¬ ((wait_for_change ⟨true, false, true⟩
        (FileWatcher.stop ⟨true, false, true⟩)).2 = false) := by
  decide

/-- C2 amended: a wait blocked with no pending change whose watcher is
stopped concurrently wakes and returns true, because stop raises the
change flag; a wait that finds the pending flag set consumes it and
returns true; a wait whose timeout elapses with no change and no stop
returns false. -/
theorem c2_wait_semantics :
    (∀ e : WatcherState, e.running = true → e.change_detected = false →
      wait_for_change e (FileWatcher.stop e) = (⟨false, false, false⟩, true))
    ∧ (∀ e w : WatcherState, e.change_detected = true →
      wait_for_change e w = ({ e with change_detected := false }, true))
    ∧ (∀ e : WatcherState, e.change_detected = false →
      wait_for_change e e = (e, false)) := by
  refine ⟨?_, ?_, ?_⟩
  · intro e h1 h2
    simp [wait_for_change, FileWatcher.stop, h1, h2]
  · intro e w h
    simp [wait_for_change, h]
  · intro e h
    cases hr : e.running <;> simp [wait_for_change, h, hr]

/-- Witness for C2 amended at concrete watcher states. -/
theorem c2_wait_semantics_witness :
    ((⟨true, false, true⟩ : WatcherState).running = true
     ∧ wait_for_change ⟨true, false, true⟩ (FileWatcher.stop ⟨true, false, true⟩)
         = (⟨false, false, false⟩, true))
    ∧ wait_for_change ⟨true, true, true⟩ ⟨true, true, true⟩ = (⟨true, false, true⟩, true)
    ∧ wait_for_change ⟨true, false, true⟩ ⟨true, false, true⟩ = (⟨true, false, true⟩, false) :=
  ⟨⟨rfl, c2_wait_semantics.1 ⟨true, false, true⟩ rfl rfl⟩,
   c2_wait_semantics.2.1 ⟨true, true, true⟩ ⟨true, true, true⟩ rfl,
   c2_wait_semantics.2.2 ⟨true, false, true⟩ rfl⟩

/-- C3 counterexample: after exactly 10 consecutive no-change samples the
interval has not doubled; the code doubles only once the count exceeds
10, so the interval is still 50 ms. -/
theorem c3_ten_samples_cex :
    ¬ ((pollRun (List.replicate 10 false)).interval = 100) := by
  decide

/-- C3 amended: the interval starts at 50 ms, is still 50 ms after 10
consecutive no-change samples, has doubled to 100 ms after the 11th, and
keeps doubling on subsequent no-change samples up to the 500 ms ceiling
where it stays; any detected change resets it to the 10 ms floor; and in
every run from the initial state the interval stays within 10 ms and
500 ms. -/
theorem c3_adaptive_interval :
    pollInit.interval = 50
    ∧ (pollRun (List.replicate 10 false)).interval = 50
    ∧ (pollRun (List.replicate 11 false)).interval = 100
    ∧ (pollRun (List.replicate 12 false)).interval = 200
    ∧ (pollRun (List.replicate 13 false)).interval = 400
    ∧ (pollRun (List.replicate 14 false)).interval = 500
    ∧ (pollRun (List.replicate 40 false)).interval = 500
    ∧ (∀ s : PollState, (pollStep s true).interval = 10)
    ∧ (∀ samples : List Bool,
        10 ≤ (pollRun samples).interval ∧ (pollRun samples).interval ≤ 500) := by
  refine ⟨by decide, by decide, by decide, by decide, by decide, by decide, by decide,
    ?_, ?_⟩
  · intro s
    simp [pollStep]
  · intro samples
    exact pollRun_bounds_aux samples pollInit (by decide) (by decide)

/-- C4: when the cache records the file as existing, less than the 10 ms
cache duration has elapsed since the previous attempt, and the
modification time is unchanged, a try-once read returns not-found without
opening the file and leaves the cache unchanged; a repeated call within
the same window behaves identically, so such calls are idempotent and
perform no new file open. -/
theorem c4_cache_fast_path {α : Type} (P : List Char → Option α)
    (cache : InputFileCache) (now now2 : Int) (fs : FsFile) (cm : Int)
    (hp : fs.present = true)
    (hex : cache.file_exists = true)
    (ht : now - cache.last_access < cache_duration)
    (hm : get_file_modify_time fs = cache.last_modify_time)
    (ht2 : now2 - cache.last_access < cache_duration) :
    try_read_input P cache now fs cm = (⟨cache, none, false⟩, fs)
    ∧ try_read_input P cache now2 fs cm = (⟨cache, none, false⟩, fs) := by
  have hens : ensure_input_file_exists fs cm = fs := by
    simp [ensure_input_file_exists, hp]
  constructor <;>
    · simp only [try_read_input, hens, try_read_core]
      rw [if_pos ⟨hex, by assumption, hm⟩]

/-- Witness for C4 at a concrete cache, clock and file. -/
theorem c4_cache_fast_path_witness :
    ((⟨true, true, 5, ["42".toList]⟩ : FsFile).present = true
     ∧ (⟨some 5, 100, true⟩ : InputFileCache).file_exists = true
     ∧ (105 : Int) - (⟨some 5, 100, true⟩ : InputFileCache).last_access < cache_duration
     ∧ get_file_modify_time ⟨true, true, 5, ["42".toList]⟩
         = (⟨some 5, 100, true⟩ : InputFileCache).last_modify_time
     ∧ (107 : Int) - (⟨some 5, 100, true⟩ : InputFileCache).last_access < cache_duration)
    ∧ try_read_input parseIntTok ⟨some 5, 100, true⟩ 105 ⟨true, true, 5, ["42".toList]⟩ 0
        = (⟨⟨some 5, 100, true⟩, none, false⟩, ⟨true, true, 5, ["42".toList]⟩) :=
  ⟨by refine ⟨rfl, rfl, by decide, by decide, by decide⟩,
   (c4_cache_fast_path parseIntTok ⟨some 5, 100, true⟩ 105 107
     ⟨true, true, 5, ["42".toList]⟩ 0 rfl rfl (by decide) (by decide) (by decide)).1⟩

/-- C6: every delivery contract first ensures the input file exists,
creating it with exactly the one-line header comment when absent and
leaving a present file untouched; a try-once read on the freshly
auto-created file returns not-found, and once the file holds a comment
line, a blank line and the line 42, a try-once read returns the value
42. -/
theorem c6_auto_create_and_read :
    (∀ (fs : FsFile) (cm : Int), fs.present = false →
      ensure_input_file_exists fs cm = ⟨true, true, cm, [headerLine]⟩)
    ∧ (∀ (fs : FsFile) (cm : Int), fs.present = true →
      ensure_input_file_exists fs cm = fs)
    ∧ ((try_read_input parseIntTok input_cache_init 100 ⟨false, false, 0, []⟩ 1).2.content
        = [headerLine])
    ∧ (try_read_input parseIntTok input_cache_init 100 ⟨false, false, 0, []⟩ 1).1.found
        = none
    ∧ (try_read_input parseIntTok
        (try_read_input parseIntTok input_cache_init 100 ⟨false, false, 0, []⟩ 1).1.cache
        200 ⟨true, true, 2, ["# comment".toList, [], "42".toList]⟩ 2).1.found
        = some 42 := by
  refine ⟨?_, ?_, by decide, by decide, by decide⟩
  · intro fs cm h
    simp [ensure_input_file_exists, h]
  · intro fs cm h
    simp [ensure_input_file_exists, h]

/-- Witness for C6 on a concrete absent and a concrete present file. -/
theorem c6_auto_create_and_read_witness :
    ((⟨false, false, 0, []⟩ : FsFile).present = false
     ∧ ensure_input_file_exists ⟨false, false, 0, []⟩ 7 = ⟨true, true, 7, [headerLine]⟩)
    ∧ (⟨true, true, 3, ["9".toList]⟩ : FsFile).present = true
    ∧ ensure_input_file_exists ⟨true, true, 3, ["9".toList]⟩ 7
        = ⟨true, true, 3, ["9".toList]⟩ :=
  ⟨⟨rfl, c6_auto_create_and_read.1 ⟨false, false, 0, []⟩ 7 rfl⟩,
   rfl,
   c6_auto_create_and_read.2.1 ⟨true, true, 3, ["9".toList]⟩ 7 rfl⟩

/-- C7: a try-once read that does not take the fast path and whose file
open succeeds runs the parser and updates all three cache fields, the
modification time, the access time and the exists flag, whether or not a
value was found; a repeated poll against the unchanged file within the
cache window then takes the fast path, returning not-found without a new
open and leaving the cache unchanged. -/
theorem c7_slow_path_updates_cache {α : Type} (P : List Char → Option α)
    (cache : InputFileCache) (now now2 : Int) (fs : FsFile) (cm : Int)
    (hp : fs.present = true) (hr : fs.readable = true)
    (hslow : ¬(cache.file_exists = true ∧ now - cache.last_access < cache_duration ∧
        get_file_modify_time fs = cache.last_modify_time))
    (ht2 : now2 - now < cache_duration) :
    (try_read_input P cache now fs cm).1.cache = ⟨get_file_modify_time fs, now, true⟩
    ∧ (try_read_input P cache now fs cm).1.openedFile = true
    ∧ try_read_input P (try_read_input P cache now fs cm).1.cache now2 fs cm
        = (⟨(try_read_input P cache now fs cm).1.cache, none, false⟩, fs) := by
  have hens : ensure_input_file_exists fs cm = fs := by
    simp [ensure_input_file_exists, hp]
  have hcore : try_read_core P cache now fs
      = ⟨⟨get_file_modify_time fs, now, true⟩, scanLines P fs.content, true⟩ := by
    simp only [try_read_core]
    rw [if_neg hslow, if_pos ⟨hp, hr⟩]
    cases h : scanLines P fs.content <;> simp [h]
  refine ⟨?_, ?_, ?_⟩
  · simp [try_read_input, hens, hcore]
  · simp [try_read_input, hens, hcore]
  · have hfirst : (try_read_input P cache now fs cm).1.cache
        = ⟨get_file_modify_time fs, now, true⟩ := by
      simp [try_read_input, hens, hcore]
    rw [hfirst]
    simp only [try_read_input, hens]
    simp only [try_read_core]
    split
    · rfl
    · next hcond =>
        exact absurd (by simp [ht2]) hcond

/-- Witness for C7 from the initial cache against a readable file. -/
theorem c7_slow_path_updates_cache_witness :
    ((⟨true, true, 5, ["42".toList]⟩ : FsFile).present = true
     ∧ (⟨true, true, 5, ["42".toList]⟩ : FsFile).readable = true
     ∧ ¬(input_cache_init.file_exists = true
          ∧ (100 : Int) - input_cache_init.last_access < cache_duration
          ∧ get_file_modify_time ⟨true, true, 5, ["42".toList]⟩
              = input_cache_init.last_modify_time)
     ∧ (105 : Int) - 100 < cache_duration)
    ∧ (try_read_input parseIntTok input_cache_init 100
        ⟨true, true, 5, ["42".toList]⟩ 0).1.cache
        = ⟨get_file_modify_time ⟨true, true, 5, ["42".toList]⟩, 100, true⟩ :=
  ⟨⟨rfl, rfl, by decide, by decide⟩,
   (c7_slow_path_updates_cache parseIntTok input_cache_init 100 105
     ⟨true, true, 5, ["42".toList]⟩ 0 rfl rfl (by decide) (by decide)).1⟩

/-- C8: the Linux native-watch start reports success for every
combination of setup failures, and any setup failure silently downgrades
the watch to the polling detector, so the platform failure is never
surfaced to the caller. -/
theorem c8_native_setup_fallback :
    (∀ s : LinuxSetup, (start_linux s).1 = true)
    ∧ (∀ s : LinuxSetup,
        s.inotify_ok = false ∨ s.add_watch_ok = false ∨ s.pipe_ok = false →
        (start_linux s).2 = DetectKind.polling) := by
  constructor
  · intro s
    rcases s with ⟨a, b, c⟩
    cases a <;> cases b <;> cases c <;> rfl
  · intro s h
    rcases s with ⟨a, b, c⟩
    cases a <;> cases b <;> cases c <;> simp_all [start_linux, start_polling]

/-- Witness for C8 with a failing watch registration. -/
theorem c8_native_setup_fallback_witness :
    ((⟨true, false, true⟩ : LinuxSetup).inotify_ok = false
     ∨ (⟨true, false, true⟩ : LinuxSetup).add_watch_ok = false
     ∨ (⟨true, false, true⟩ : LinuxSetup).pipe_ok = false)
    ∧ (start_linux ⟨true, false, true⟩).2 = DetectKind.polling :=
  ⟨by decide, c8_native_setup_fallback.2 ⟨true, false, true⟩ (by decide)⟩

/-- C9: stop is a no-op from the idle state and idempotent in general; a
start issued while a watch is running behaves exactly as a full stop,
which leaves no running watch and no live background thread, followed by
a start from idle; and after any start exactly the new watch is running
with its background thread live. -/
theorem c9_single_active_watch :
    (∀ s : WatcherState, s.running = false → FileWatcher.stop s = s)
    ∧ (∀ s : WatcherState, FileWatcher.stop (FileWatcher.stop s) = FileWatcher.stop s)
    ∧ (∀ s : WatcherState, s.running = true →
        FileWatcher.start s = FileWatcher.start (FileWatcher.stop s)
        ∧ (FileWatcher.stop s).running = false
        ∧ (FileWatcher.stop s).threadActive = false)
    ∧ (∀ s : WatcherState,
        (FileWatcher.start s).running = true ∧ (FileWatcher.start s).threadActive = true) := by
  refine ⟨?_, ?_, ?_, ?_⟩
  · intro s h
    simp [FileWatcher.stop, h]
  · intro s
    rcases s with ⟨r, c, t⟩
    cases r <;> simp [FileWatcher.stop]
  · intro s h
    refine ⟨?_, by simp [FileWatcher.stop, h], by simp [FileWatcher.stop, h]⟩
    simp [FileWatcher.start, FileWatcher.stop, h]
  · intro s
    exact ⟨rfl, rfl⟩

/-- Witness for C9 at an idle and at a running watcher state. -/
theorem c9_single_active_watch_witness :
    ((⟨false, false, false⟩ : WatcherState).running = false
     ∧ FileWatcher.stop ⟨false, false, false⟩ = ⟨false, false, false⟩)
    ∧ (⟨true, false, true⟩ : WatcherState).running = true
    ∧ FileWatcher.start ⟨true, false, true⟩
        = FileWatcher.start (FileWatcher.stop ⟨true, false, true⟩) :=
  ⟨⟨rfl, c9_single_active_watch.1 ⟨false, false, false⟩ rfl⟩,
   rfl,
   (c9_single_active_watch.2.2.1 ⟨true, false, true⟩ rfl).1⟩

/-- C10: a timeout-bounded read with a zero timeout returns false at once
on both variants: the deadline check precedes the first read attempt, so
no read or parse of the input file is ever attempted, whatever the file
contains, and the event-driven variant stops its watcher before
returning. -/
theorem c10_zero_timeout {α : Type} (P : List Char → Option α) (start : Int)
    (cache : InputFileCache) (e0 : LoopEnv) (rest : List LoopEnv)
    (h : start ≤ e0.now) :
    read_input_timeout_event_driven P start 0 cache (e0 :: rest)
      = some ⟨false, none, true, 0, e0.now, cache⟩
    ∧ read_input_timeout_polling P start 0 cache (e0 :: rest)
      = some ⟨false, none, 0, e0.now, cache⟩ := by
  have h0 : (0 : Int) ≤ e0.now - start := by omega
  constructor
  · simp [read_input_timeout_event_driven, ev_loop, h0]
  · simp [read_input_timeout_polling, poll_timeout_loop, h0]

/-- Witness for C10 against a file that already contains the value 42. -/
theorem c10_zero_timeout_witness :
    (0 : Int) ≤ (⟨5, true, ⟨true, true, 1, ["42".toList]⟩⟩ : LoopEnv).now
    ∧ read_input_timeout_event_driven parseIntTok 0 0 input_cache_init
        [⟨5, true, ⟨true, true, 1, ["42".toList]⟩⟩]
      = some ⟨false, none, true, 0, 5, input_cache_init⟩ :=
  ⟨by decide,
   (c10_zero_timeout parseIntTok 0 input_cache_init
     ⟨5, true, ⟨true, true, 1, ["42".toList]⟩⟩ [] (by decide)).1⟩

/-- C5: a timeout-bounded read against a file that never yields a valid
value returns false once the elapsed time reaches the deadline, and under
the per-iteration wake-up gap bound the return instant lies within one
wake-up granularity past the deadline, for the event-driven variant
(whose waits are capped by the remaining time and 100 ms) and for the
polling variant (whose fixed sleep is 100 ms); a value found before the
deadline is returned with true; and the event-driven variant stops the
watcher it started before returning, on the success path and on the
timeout path alike. -/
theorem c5_timeout_read :
    (∀ (α : Type) (P : List Char → Option α) (start timeout gran : Int)
        (cache : InputFileCache) (e0 : LoopEnv) (rest : List LoopEnv),
      0 ≤ timeout → 0 ≤ gran →
      (∀ e ∈ e0 :: rest, scanLines P e.fs.content = none) →
      (∃ e ∈ e0 :: rest, timeout ≤ e.now - start) →
      gapChain (evGap start timeout gran) (e0 :: rest) = true →
      e0.now ≤ start + gran →
      ∃ r : EvResult α,
        read_input_timeout_event_driven P start timeout cache (e0 :: rest) = some r
        ∧ r.success = false ∧ r.value = none ∧ r.watcherStopped = true
        ∧ start + timeout ≤ r.finishTime ∧ r.finishTime ≤ start + timeout + gran)
    ∧ (∀ (α : Type) (P : List Char → Option α) (start timeout : Int)
        (cache : InputFileCache) (e0 : LoopEnv) (rest : List LoopEnv) (v : α),
      e0.now - start < timeout →
      (try_read_core P cache e0.now e0.fs).found = some v →
      read_input_timeout_event_driven P start timeout cache (e0 :: rest)
        = some ⟨true, some v, true, 1, e0.now, (try_read_core P cache e0.now e0.fs).cache⟩)
    ∧ (∀ (α : Type) (P : List Char → Option α) (start timeout : Int)
        (cache : InputFileCache) (env : List LoopEnv) (r : EvResult α),
      read_input_timeout_event_driven P start timeout cache env = some r →
      r.watcherStopped = true)
    ∧ (∀ (α : Type) (P : List Char → Option α) (start timeout gran : Int)
        (cache : InputFileCache) (e0 : LoopEnv) (rest : List LoopEnv),
      0 ≤ timeout → 0 ≤ gran →
      (∀ e ∈ e0 :: rest, scanLines P e.fs.content = none) →
      (∃ e ∈ e0 :: rest, timeout ≤ e.now - start) →
      gapChain (pollGap start timeout gran) (e0 :: rest) = true →
      e0.now ≤ start + gran →
      ∃ r : PollResult α,
        read_input_timeout_polling P start timeout cache (e0 :: rest) = some r
        ∧ r.success = false ∧ r.value = none
        ∧ start + timeout ≤ r.finishTime ∧ r.finishTime ≤ start + timeout + 100 + gran)
    ∧ (∀ (α : Type) (P : List Char → Option α) (start timeout : Int)
        (cache : InputFileCache) (e0 : LoopEnv) (rest : List LoopEnv) (v : α),
      e0.now - start < timeout →
      (try_read_core P cache e0.now e0.fs).found = some v →
      read_input_timeout_polling P start timeout cache (e0 :: rest)
        = some ⟨true, some v, 1, e0.now, (try_read_core P cache e0.now e0.fs).cache⟩) := by
  refine ⟨?_, ?_, ?_, ?_, ?_⟩
  · intro α P start timeout gran cache e0 rest ht hg hnv hex hchain hhd
    exact ev_loop_deadline P start timeout gran (e0 :: rest) cache true 0 hnv hex hchain
      (by
        intro y hy
        rw [List.head?_cons] at hy
        injection hy with h2
        subst h2
        omega)
  · intro α P start timeout cache e0 rest v h1 h2
    have hts : ¬ (timeout ≤ e0.now - start) := by omega
    simp only [read_input_timeout_event_driven, ev_loop]
    rw [if_neg hts]
    simp only [Bool.true_or]
    rw [if_pos trivial, h2]
  · intro α P start timeout cache env r h
    exact ev_loop_stopped P start timeout env cache true 0 r h
  · intro α P start timeout gran cache e0 rest ht hg hnv hex hchain hhd
    exact poll_loop_deadline P start timeout gran (e0 :: rest) cache 0 hnv hex hchain
      (by
        intro y hy
        rw [List.head?_cons] at hy
        injection hy with h2
        subst h2
        omega)
  · intro α P start timeout cache e0 rest v h1 h2
    have hts : ¬ (timeout ≤ e0.now - start) := by omega
    simp only [read_input_timeout_polling, poll_timeout_loop]
    rw [if_neg hts, h2]

/-- A present, readable file with no content lines, used by the C5
witness as a file that never yields a value. -/
def c5emptyFile : FsFile := ⟨true, true, 1, []⟩

/-- A present, readable file holding the single line 42, used by the C5
witness as a file with a valid value. -/
def c5valFile : FsFile := ⟨true, true, 1, ["42".toList]⟩

/-- Iteration environments for the C5 deadline witness of the
event-driven variant: start 0, timeout 250 ms, slack 5 ms. -/
def c5evTrace : List LoopEnv :=
  [⟨3, false, c5emptyFile⟩, ⟨100, false, c5emptyFile⟩,
   ⟨200, false, c5emptyFile⟩, ⟨255, false, c5emptyFile⟩]

/-- Iteration environments for the C5 deadline witness of the polling
variant: start 0, timeout 250 ms, slack 5 ms on top of the 100 ms
sleep. -/
def c5pollTrace : List LoopEnv :=
  [⟨3, false, c5emptyFile⟩, ⟨104, false, c5emptyFile⟩,
   ⟨205, false, c5emptyFile⟩, ⟨306, false, c5emptyFile⟩]

/-- Witness for C5: concrete traces that reach the deadline with no
value, and a concrete file whose value is returned before the
deadline. -/
theorem c5_timeout_read_witness :
    ((∀ e ∈ c5evTrace, scanLines parseIntTok e.fs.content = none)
     ∧ (∃ e ∈ c5evTrace, (250 : Int) ≤ e.now - 0)
     ∧ gapChain (evGap 0 250 5) c5evTrace = true
     ∧ ∃ r : EvResult Int,
         read_input_timeout_event_driven parseIntTok 0 250 input_cache_init c5evTrace
           = some r
         ∧ r.success = false ∧ r.value = none ∧ r.watcherStopped = true
         ∧ (0 : Int) + 250 ≤ r.finishTime ∧ r.finishTime ≤ 0 + 250 + 5)
    ∧ ((try_read_core parseIntTok input_cache_init 10 c5valFile).found = some 42
       ∧ read_input_timeout_event_driven parseIntTok 0 100 input_cache_init
           [⟨10, false, c5valFile⟩]
         = some ⟨true, some 42, true, 1, 10,
             (try_read_core parseIntTok input_cache_init 10 c5valFile).cache⟩)
    ∧ (read_input_timeout_event_driven parseIntTok 0 100 input_cache_init
         [⟨10, false, c5valFile⟩]
         = some ⟨true, some 42, true, 1, 10, ⟨some 1, 10, true⟩⟩
       ∧ (⟨true, some 42, true, 1, 10,
            ⟨some 1, 10, true⟩⟩ : EvResult Int).watcherStopped = true)
    ∧ (gapChain (pollGap 0 250 5) c5pollTrace = true
       ∧ ∃ r : PollResult Int,
           read_input_timeout_polling parseIntTok 0 250 input_cache_init c5pollTrace
             = some r
           ∧ r.success = false ∧ r.value = none
           ∧ (0 : Int) + 250 ≤ r.finishTime ∧ r.finishTime ≤ 0 + 250 + 100 + 5)
    ∧ read_input_timeout_polling parseIntTok 0 100 input_cache_init
        [⟨10, false, c5valFile⟩]
      = some ⟨true, some 42, 1, 10,
          (try_read_core parseIntTok input_cache_init 10 c5valFile).cache⟩ :=
  ⟨⟨by decide, by decide, by decide,
    c5_timeout_read.1 Int parseIntTok 0 250 5 input_cache_init
      ⟨3, false, c5emptyFile⟩
      [⟨100, false, c5emptyFile⟩, ⟨200, false, c5emptyFile⟩, ⟨255, false, c5emptyFile⟩]
      (by decide) (by decide) (by decide) (by decide) (by decide) (by decide)⟩,
   ⟨by decide,
    c5_timeout_read.2.1 Int parseIntTok 0 100 input_cache_init
      ⟨10, false, c5valFile⟩ [] 42 (by decide) (by decide)⟩,
   ⟨by decide,
    c5_timeout_read.2.2.1 Int parseIntTok 0 100 input_cache_init
      [⟨10, false, c5valFile⟩] ⟨true, some 42, true, 1, 10, ⟨some 1, 10, true⟩⟩
      (by decide)⟩,
   ⟨by decide,
    c5_timeout_read.2.2.2.1 Int parseIntTok 0 250 5 input_cache_init
      ⟨3, false, c5emptyFile⟩
      [⟨104, false, c5emptyFile⟩, ⟨205, false, c5emptyFile⟩, ⟨306, false, c5emptyFile⟩]
      (by decide) (by decide) (by decide) (by decide) (by decide) (by decide)⟩,
   c5_timeout_read.2.2.2.2 Int parseIntTok 0 100 input_cache_init
     ⟨10, false, c5valFile⟩ [] 42 (by decide) (by decide)⟩

end LogFunc
